import Mathlib

/-!
# Image_Transformer — verification of the backend request pipeline

Shallow embedding of the backend of the Image_Transformer repository
(Express + sharp image conversion service) and proofs about it.

The embedded code comes from:
* `src/backend/src/controllers/imageController.ts` — quota tracker
  (`checkIPQuota`), option validation (`conversionOptionsSchema`), and the
  request orchestrator (`convertImages`);
* the current ESM image-processing module (`processImage`,
  `processImageWithLimits`, `createZipFromImages`, `cleanTempFiles`), the
  version imported by the controller (it carries the dimension / ZIP-size /
  timeout limit handling; an older copy without those checks also survives in
  the tree at `src/backend/src/utils/imageProcessor.ts`);
* `src/backend/src/middlewares/uploadMiddleware.ts` — filename sanitisation
  (`sanitizeFileName`, `generateUniqueFilename`) and guarded deletion
  (`safelyDeleteFile`).

Machine integers are modelled as `Nat`/`Int`/`Rat` (JavaScript numbers never
overflow in the ranges used here); JavaScript strings are modelled as
`List Char`; the in-memory quota `Map` is modelled as a function
`String → Option IPQuota`; fallible code returns `Except`.
-/

namespace ImageTransformer

/-! ## Quota tracker (`imageController.ts`, `checkIPQuota`)

`Date` values in the quota record always hold a midnight (`new Date(y,m,d)`),
so they are modelled as a day index `Nat`.  `ipQuotas` is the in-memory map.
-/

/-- `interface IPQuota { count: number; resetAt: Date }`. -/
structure IPQuota where
  count : Nat
  resetAt : Nat
  deriving DecidableEq, Repr

/-- The in-memory `ipQuotas` map, `Map<string, IPQuota>`. -/
def QuotaMap : Type := String → Option IPQuota

/-- The empty `ipQuotas` map (process start). -/
def QuotaMap.empty : QuotaMap := fun _ => none

/-- `Map.set` on the quota map. -/
def QuotaMap.set (m : QuotaMap) (ip : String) (q : IPQuota) : QuotaMap :=
  fun k => if k = ip then some q else m k

/-- The record `checkIPQuota` works with after the reset step:
`if (!ipQuota || ipQuota.resetAt < today) ipQuota = { count: 0, resetAt: today }`. -/
def effectiveQuota (today : Nat) (stored : Option IPQuota) : IPQuota :=
  match stored with
  | none => { count := 0, resetAt := today }
  | some r => if r.resetAt < today then { count := 0, resetAt := today } else r

/-- `checkIPQuota` from `imageController.ts` (lines 39–64), with the
configured `DAILY_QUOTA_PER_IP` and the current day as parameters.  Returns
the boolean result together with the updated `ipQuotas` map. -/
def checkIPQuota (dailyQuota : Nat) (today : Nat) (ip : String) (ipQuotas : QuotaMap) :
    Bool × QuotaMap :=
  let q := effectiveQuota today (ipQuotas ip)
  if q.count ≥ dailyQuota then
    (false, ipQuotas)
  else
    (true, ipQuotas.set ip { count := q.count + 1, resetAt := q.resetAt })

/-- A sequence of quota-tracker calls: each event is (day of the call, client
identifier).  Folds `checkIPQuota` over the events starting from a given map. -/
def runQuotaCalls (dailyQuota : Nat) (calls : List (Nat × String)) (m : QuotaMap) : QuotaMap :=
  match calls with
  | [] => m
  | (today, ip) :: rest => runQuotaCalls dailyQuota rest (checkIPQuota dailyQuota today ip m).2

end ImageTransformer

namespace ImageTransformer

/-! ## Theorems about the quota tracker -/

theorem effectiveQuota_count_zero (today : Nat) (stored : Option IPQuota)
    (h : stored = none ∨ ∃ r, stored = some r ∧ r.resetAt < today) :
    effectiveQuota today stored = { count := 0, resetAt := today } := by
  rcases h with h | ⟨r, hr, hlt⟩
  · simp [effectiveQuota, h]
  · simp [effectiveQuota, hr, hlt]

/-- **C2.** One call of `checkIPQuota`: when no record exists for the client or
the stored window has elapsed, the effective record is a fresh window with
count 0; then, if the effective count has reached the daily limit, the call
returns `false` and the map (hence the stored counter) is unchanged;
otherwise the call returns `true` and the stored counter for that client is
incremented by exactly one. -/
theorem checkIPQuota_spec (dailyQuota today : Nat) (ip : String) (m : QuotaMap) :
    ((m ip = none ∨ ∃ r, m ip = some r ∧ r.resetAt < today) →
      effectiveQuota today (m ip) = { count := 0, resetAt := today }) ∧
    ((effectiveQuota today (m ip)).count ≥ dailyQuota →
      checkIPQuota dailyQuota today ip m = (false, m)) ∧
    ((effectiveQuota today (m ip)).count < dailyQuota →
      (checkIPQuota dailyQuota today ip m).1 = true ∧
      (checkIPQuota dailyQuota today ip m).2 ip =
        some { count := (effectiveQuota today (m ip)).count + 1,
               resetAt := (effectiveQuota today (m ip)).resetAt }) := by
  refine ⟨effectiveQuota_count_zero today (m ip), ?_, ?_⟩
  · intro hge
    simp [checkIPQuota, hge]
  · intro hlt
    constructor
    · simp [checkIPQuota, Nat.not_le.mpr hlt]
    · simp [checkIPQuota, Nat.not_le.mpr hlt, QuotaMap.set]

/-- Witness for `checkIPQuota_spec` at a concrete input: an empty map, daily
limit 2, day 5, client "a".  The fresh window starts at 0, the call succeeds
and stores count 1. -/
theorem checkIPQuota_spec_witness :
    effectiveQuota 5 (QuotaMap.empty "a") = { count := 0, resetAt := 5 } ∧
    (checkIPQuota 2 5 "a" QuotaMap.empty).1 = true ∧
    (checkIPQuota 2 5 "a" QuotaMap.empty).2 "a" = some { count := 1, resetAt := 5 } := by
  have h := checkIPQuota_spec 2 5 "a" QuotaMap.empty
  refine ⟨h.1 (Or.inl rfl), (h.2.2 (by decide)).1, (h.2.2 (by decide)).2⟩

/-- The per-entry invariant: every stored count is at most the daily limit. -/
def QuotaInvariant (dailyQuota : Nat) (m : QuotaMap) : Prop :=
  ∀ ip r, m ip = some r → r.count ≤ dailyQuota

theorem checkIPQuota_preserves_invariant (dailyQuota today : Nat) (ip : String)
    (m : QuotaMap) (h : QuotaInvariant dailyQuota m) :
    QuotaInvariant dailyQuota (checkIPQuota dailyQuota today ip m).2 := by
  unfold checkIPQuota
  by_cases hge : (effectiveQuota today (m ip)).count ≥ dailyQuota
  · simpa [hge] using h
  · simp only [hge, if_false]
    intro k r hk
    by_cases hki : k = ip
    · subst hki
      simp only [QuotaMap.set, if_pos rfl, if_true, reduceIte, Option.some.injEq] at hk
      subst hk
      dsimp only
      omega
    · simp only [QuotaMap.set, if_neg hki] at hk
      exact h k r hk

theorem runQuotaCalls_preserves_invariant (dailyQuota : Nat) (calls : List (Nat × String))
    (m : QuotaMap) (h : QuotaInvariant dailyQuota m) :
    QuotaInvariant dailyQuota (runQuotaCalls dailyQuota calls m) := by
  induction calls generalizing m with
  | nil => exact h
  | cons c rest ih =>
    exact ih _ (checkIPQuota_preserves_invariant dailyQuota c.1 c.2 m h)

/-- **C3.** For every configured daily limit, every sequence of quota-tracker
calls starting from the empty in-memory map, every client and every stored
record: the stored count never exceeds `DAILY_QUOTA_PER_IP`. -/
theorem quota_count_never_exceeds_limit (dailyQuota : Nat) (calls : List (Nat × String))
    (ip : String) (r : IPQuota)
    (h : runQuotaCalls dailyQuota calls QuotaMap.empty ip = some r) :
    r.count ≤ dailyQuota := by
  refine runQuotaCalls_preserves_invariant dailyQuota calls QuotaMap.empty ?_ ip r h
  intro k q hk
  simp [QuotaMap.empty] at hk

/-- Witness for `quota_count_never_exceeds_limit`: two calls on day 0 for
client "a" with limit 1; the stored record is ⟨1, 0⟩ and 1 ≤ 1. -/
theorem quota_count_never_exceeds_limit_witness :
    runQuotaCalls 1 [(0, "a"), (0, "a")] QuotaMap.empty "a" = some ⟨1, 0⟩ ∧ 1 ≤ 1 :=
  ⟨by decide, quota_count_never_exceeds_limit 1 [(0, "a"), (0, "a")] "a" ⟨1, 0⟩ (by decide)⟩

end ImageTransformer

namespace ImageTransformer

/-! ## Validator (`imageController.ts`, `conversionOptionsSchema`)

```
const conversionOptionsSchema = z.object({
  format: z.enum(['jpeg','png','webp','avif','gif']),
  width: z.coerce.number().positive().optional(),
  height: z.coerce.number().positive().optional(),
  quality: z.coerce.number().min(1).max(100).optional().default(80),
  maintainAspectRatio: z.coerce.boolean().optional().default(true),
});
```

The zod coercion step (`z.coerce.number()` on form-data strings) is external
library behaviour; fields arrive here already coerced, so a numeric field is
an `Option ℚ` (`none` = absent).  `z.coerce.boolean()` never fails, so the
boolean field is an `Option Bool`.  Note that zod `.min(1).max(100)` are
*range checks* (they reject out-of-range input), not clamps.
-/

/-- The `format` enum of `formatSchema`. -/
inductive ImageFormat
  | jpeg | png | webp | avif | gif
  deriving DecidableEq, Repr

/-- `z.enum(['jpeg','png','webp','avif','gif'])` over the raw string. -/
def parseFormat : Option String → Except Unit ImageFormat
  | some "jpeg" => .ok .jpeg
  | some "png" => .ok .png
  | some "webp" => .ok .webp
  | some "avif" => .ok .avif
  | some "gif" => .ok .gif
  | _ => .error ()

/-- `z.coerce.number().positive().optional()`. -/
def parsePositive : Option ℚ → Except Unit (Option ℚ)
  | none => .ok none
  | some x => if 0 < x then .ok (some x) else .error ()

/-- `z.coerce.number().min(1).max(100).optional().default(80)`:
absent → default 80; present → accepted iff it lies in [1,100]
(zod `.min`/`.max` reject out-of-range values, they do not clamp). -/
def parseQuality : Option ℚ → Except Unit ℚ
  | none => .ok 80
  | some q => if 1 ≤ q ∧ q ≤ 100 then .ok q else .error ()

/-- Raw (form-data, post-coercion) options as seen by `safeParse`. -/
structure RawOptions where
  format : Option String
  width : Option ℚ
  height : Option ℚ
  quality : Option ℚ
  maintainAspectRatio : Option Bool

/-- Validated `ConversionOptions` (`utils/types.ts`). -/
structure ConversionOptions where
  format : ImageFormat
  width : Option ℚ
  height : Option ℚ
  quality : ℚ
  maintainAspectRatio : Bool
  deriving DecidableEq, Repr

/-- `conversionOptionsSchema.safeParse` (success/failure and the validated
value; zod reports per-field details on failure, collapsed to `Unit` here). -/
def conversionOptionsSchema (raw : RawOptions) : Except Unit ConversionOptions :=
  match parseFormat raw.format with
  | .error e => .error e
  | .ok f =>
    match parsePositive raw.width with
    | .error e => .error e
    | .ok w =>
      match parsePositive raw.height with
      | .error e => .error e
      | .ok h =>
        match parseQuality raw.quality with
        | .error e => .error e
        | .ok q =>
          .ok { format := f, width := w, height := h, quality := q,
                maintainAspectRatio := raw.maintainAspectRatio.getD true }

end ImageTransformer

namespace ImageTransformer

/-! ## Theorems about the validator (claim C6) -/

/-- **C6, counterexample.** The claim says out-of-range numeric quality values
are *clamped* into [1,100] rather than rejected.  In the code,
`z.coerce.number().min(1).max(100)` rejects: a request with `quality = 150`
(all other fields valid) fails validation instead of being brought into
range. -/
theorem quality_150_is_rejected_not_clamped :
    conversionOptionsSchema
        { format := some "webp", width := none, height := none,
          quality := some 150, maintainAspectRatio := none } = .error () := by
  rfl

/-- **C6, amended.** Validation of the `quality` field *rejects* out-of-range
numeric values (accepting exactly those in [1,100]) and uses the default 80
when the field is absent; consequently every successfully validated options
value has a quality in [1,100], equal to the request value when one was
given. -/
theorem quality_validation_spec (raw : RawOptions) :
    (∀ q, raw.quality = some q → ¬(1 ≤ q ∧ q ≤ 100) →
      conversionOptionsSchema raw = .error ()) ∧
    (∀ opts, conversionOptionsSchema raw = .ok opts →
      1 ≤ opts.quality ∧ opts.quality ≤ 100 ∧
      (raw.quality = none → opts.quality = 80) ∧
      (∀ q, raw.quality = some q → opts.quality = q)) := by
  constructor
  · intro q hq hout
    have hq' : parseQuality raw.quality = .error () := by
      rw [hq]; simp [parseQuality, hout]
    unfold conversionOptionsSchema
    rw [hq']
    rcases parseFormat raw.format with e | f
    · rfl
    rcases parsePositive raw.width with e | w
    · rfl
    rcases parsePositive raw.height with e | h
    · rfl
    rfl
  · intro opts hok
    unfold conversionOptionsSchema at hok
    rcases hf : parseFormat raw.format with e | f <;> rw [hf] at hok
    · cases hok
    rcases hw : parsePositive raw.width with e | w <;> rw [hw] at hok
    · cases hok
    rcases hh : parsePositive raw.height with e | h <;> rw [hh] at hok
    · cases hok
    rcases hq : raw.quality with _ | q
    · rw [hq] at hok
      have h80 : parseQuality none = .ok 80 := rfl
      rw [h80] at hok
      rcases hok with ⟨⟩
      exact ⟨by norm_num, by norm_num, fun _ => rfl, fun q h => nomatch h⟩
    · rw [hq] at hok
      by_cases hrange : 1 ≤ q ∧ q ≤ 100
      · have hval : parseQuality (some q) = .ok q := by simp [parseQuality, hrange]
        rw [hval] at hok
        rcases hok with ⟨⟩
        refine ⟨hrange.1, hrange.2, ?_, ?_⟩
        · intro habs
          cases habs
        · intro q' hq'
          cases hq'
          rfl
      · have hval : parseQuality (some q) = .error () := by simp [parseQuality, hrange]
        rw [hval] at hok
        cases hok

/-- Witness for `quality_validation_spec`: a valid request with
`quality = 85` parses with quality 85 ∈ [1,100]. -/
theorem quality_validation_spec_witness :
    1 ≤ (85 : ℚ) ∧ (85 : ℚ) ≤ 100 ∧
      ((some (85 : ℚ) : Option ℚ) = none → (85 : ℚ) = 80) ∧
      (∀ q, (some (85 : ℚ) : Option ℚ) = some q → (85 : ℚ) = q) := by
  have h := (quality_validation_spec
      { format := some "webp", width := none, height := none,
        quality := some 85, maintainAspectRatio := none }).2
      { format := .webp, width := none, height := none,
        quality := 85, maintainAspectRatio := true } (by rfl)
  exact h

end ImageTransformer

namespace ImageTransformer

/-! ## Converter dimension resolution (`processImageWithLimits`)

From the current ESM `imageProcessor` module (the one the controller
imports), the target-dimension resolution:

```
if (width !== undefined && width > MAX_WIDTH) { width = MAX_WIDTH; }
if (height !== undefined && height > MAX_HEIGHT) { height = MAX_HEIGHT; }
if (width === undefined) { width = Math.min(imageInfo.width ?? MAX_WIDTH, MAX_WIDTH); }
if (height === undefined) { height = Math.min(imageInfo.height ?? MAX_HEIGHT, MAX_HEIGHT); }
if (options.maintainAspectRatio && ... && imageInfo.height > 0) {
  const aspectRatio = imageInfo.width / imageInfo.height;
  if (width / height > aspectRatio) { width = Math.round(height * aspectRatio); }
  else { height = Math.round(width / aspectRatio); }
}
```

JavaScript numbers are modelled as `ℚ` (all operations here are exact in
float64 for the integer-valued inputs the claims are about, and the
comparison/branching structure is identical).  The metadata dimensions are
always present on decodable images, so `imageInfo.width ?? MAX_WIDTH` is the
metadata width.
-/

/-- JavaScript `Math.round` (round half toward +∞), as a rational. -/
def jsRound (q : ℚ) : ℚ := (⌊q + 1 / 2⌋ : ℤ)

/-- Requested-dimension clamping and defaulting: clamp a requested dimension
to the configured maximum; when absent use `Math.min(original, maximum)`. -/
def resolvedDim (maxD : ℚ) (requested : Option ℚ) (orig : ℚ) : ℚ :=
  match requested with
  | some d => if d > maxD then maxD else d
  | none => min orig maxD

/-- The maintain-aspect-ratio step (`aspectRatio = origW / origH`;
wider-than-tall requested boxes recompute the width from the height,
otherwise the height is recomputed from the width). -/
def applyAspectRatio (maintainAspectRatio : Bool) (origW origH w h : ℚ) : ℚ × ℚ :=
  if maintainAspectRatio ∧ 0 < origH then
    let aspectRatio := origW / origH
    if w / h > aspectRatio then (jsRound (h * aspectRatio), h)
    else (w, jsRound (w / aspectRatio))
  else (w, h)

/-- The full target-dimension resolution of `processImageWithLimits`. -/
def resolveDimensions (maxW maxH : ℚ) (reqW reqH : Option ℚ) (origW origH : ℚ)
    (maintainAspectRatio : Bool) : ℚ × ℚ :=
  applyAspectRatio maintainAspectRatio origW origH
    (resolvedDim maxW reqW origW) (resolvedDim maxH reqH origH)

/-- **C5.** With `maintainAspectRatio = true` the resolved (clamped/defaulted)
requested box is compared against the original aspect ratio: when the box is
wider-than-tall relative to the source, the width is recomputed from the
height, otherwise the height is recomputed from the width, rounding to the
nearest integer; in particular a 1600×1200 source with `width=800` (height
absent, limits at their 4000×4000 defaults) resolves to 800×600. -/
theorem aspect_ratio_tiebreak (maxW maxH : ℚ) (reqW reqH : Option ℚ) (origW origH : ℚ)
    (hH : 0 < origH) :
    (resolvedDim maxW reqW origW / resolvedDim maxH reqH origH > origW / origH →
      resolveDimensions maxW maxH reqW reqH origW origH true =
        (jsRound (resolvedDim maxH reqH origH * (origW / origH)),
          resolvedDim maxH reqH origH)) ∧
    (resolvedDim maxW reqW origW / resolvedDim maxH reqH origH ≤ origW / origH →
      resolveDimensions maxW maxH reqW reqH origW origH true =
        (resolvedDim maxW reqW origW,
          jsRound (resolvedDim maxW reqW origW / (origW / origH)))) ∧
    resolveDimensions 4000 4000 (some 800) none 1600 1200 true = (800, 600) := by
  refine ⟨?_, ?_, ?_⟩
  · intro hgt
    simp only [resolveDimensions, applyAspectRatio, hH, and_true]
    rw [if_pos trivial, if_pos hgt]
  · intro hle
    simp only [resolveDimensions, applyAspectRatio, hH, and_true]
    rw [if_pos trivial, if_neg (not_lt.mpr hle)]
  · show applyAspectRatio true 1600 1200 (resolvedDim 4000 (some 800) 1600)
      (resolvedDim 4000 none 1200) = (800, 600)
    have h1 : resolvedDim 4000 (some 800) 1600 = 800 := by norm_num [resolvedDim]
    have h2 : resolvedDim 4000 none 1200 = 1200 := by norm_num [resolvedDim]
    rw [h1, h2]
    have hcond : ¬ ((800 : ℚ) / 1200 > 1600 / 1200) := by norm_num
    have hr : jsRound ((800 : ℚ) / (1600 / 1200)) = 600 := by
      norm_num [jsRound]
    simp only [applyAspectRatio]
    rw [if_pos (by norm_num), if_neg hcond, hr]

/-- Witness for `aspect_ratio_tiebreak` at the concrete scenario input. -/
theorem aspect_ratio_tiebreak_witness :
    resolveDimensions 4000 4000 (some 800) none 1600 1200 true = (800, 600) :=
  (aspect_ratio_tiebreak 4000 4000 (some 800) none 1600 1200 (by norm_num)).2.2

end ImageTransformer

namespace ImageTransformer

/-! ## Converter limit handling (`processImage` / `processImageWithLimits`)

From the current ESM `imageProcessor` module.  `processImageWithLimits`
checks the upload-boundary, reads metadata, enforces the dimension limits,
resolves target dimensions, checks the output boundary, derives the adaptive
quality and invokes sharp once; `processImage` wraps it (plus a wall-clock
timeout, elided here — real time is outside the embedding) in a `catch` that
maps memory-related messages to a 413 and *every other* error to a generic
500.  The sharp codec call is a black box, modelled as an oracle
`encode : ℚ × ℚ → ℚ → ImageMeta` from (resolved dimensions, effective
quality) to the metadata read back from the written output file.
-/

/-- `AppError` (`utils/apiError.ts`): message, HTTP status code, optional
machine-readable code (from `options.code`). -/
structure AppError where
  message : String
  statusCode : Nat
  code : Option String
  deriving DecidableEq, Repr

/-- Metadata of an image as reported by `sharp(...).metadata()`. -/
structure ImageMeta where
  width : Nat
  height : Nat
  deriving DecidableEq, Repr

/-- `ConversionResult` (`utils/types.ts`). -/
structure ConversionResult where
  path : String
  format : ImageFormat
  width : ℚ
  height : ℚ
  deriving DecidableEq, Repr

/-- The 413 error thrown by the dimension check:
`new AppError('Image dimensions exceed allowed limit (MxN)', 413, { code: 'DIMENSION_LIMIT_ERROR' })`. -/
def dimensionLimitError (maxW maxH : Nat) : AppError :=
  { message := "Image dimensions exceed allowed limit (" ++ toString maxW ++ "x"
      ++ toString maxH ++ ")",
    statusCode := 413,
    code := some "DIMENSION_LIMIT_ERROR" }

/-- The original-dimension limit check of `processImageWithLimits`
(`MAX_DIMENSIONS = MAX_WIDTH * MAX_HEIGHT`):
reject if width, height, or total pixel count exceeds the configured maxima. -/
def checkDimensionLimits (maxW maxH : Nat) (meta : ImageMeta) : Except AppError Unit :=
  if meta.width > maxW ∨ meta.height > maxH ∨ meta.width * meta.height > maxW * maxH then
    .error (dimensionLimitError maxW maxH)
  else
    .ok ()

/-- Adaptive quality: `if (fileSizeMB > 4) quality = Math.min(quality, 70)`. -/
def adaptiveQuality (quality fileSizeMB : ℚ) : ℚ :=
  if fileSizeMB > 4 then min quality 70 else quality

/-- The 403 thrown when `ensurePathIsWithinBoundary` fails. -/
def pathNotAllowedError : AppError :=
  { message := "File path not allowed", statusCode := 403, code := none }

/-- `processImageWithLimits`.  `pathOk` / `outPathOk` are the results of the
two `ensurePathIsWithinBoundary` checks (input path, derived output path);
`meta` is the metadata of the source; `fileSizeMB` the `statSync` size. -/
def processImageWithLimits (maxW maxH : Nat) (pathOk : Bool) (meta : ImageMeta)
    (opts : ConversionOptions) (outPathOk : Bool) (outputPath : String)
    (fileSizeMB : ℚ) (encode : ℚ × ℚ → ℚ → ImageMeta) : Except AppError ConversionResult :=
  if !pathOk then .error pathNotAllowedError
  else
    match checkDimensionLimits maxW maxH meta with
    | .error e => .error e
    | .ok _ =>
      let dims := resolveDimensions maxW maxH opts.width opts.height
        (meta.width : ℚ) (meta.height : ℚ) opts.maintainAspectRatio
      if !outPathOk then
        .error { message := "Output path not allowed", statusCode := 403, code := none }
      else
        let processedInfo := encode dims (adaptiveQuality opts.quality fileSizeMB)
        .ok { path := outputPath, format := opts.format,
              width := (processedInfo.width : ℚ), height := (processedInfo.height : ℚ) }

/-- Substring check on character lists (JavaScript `String.includes`). -/
def containsSub (hay needle : List Char) : Bool :=
  match hay with
  | [] => needle = []
  | _ :: t => needle.isPrefixOf hay || containsSub t needle

/-- `errorMsg.toLowerCase().includes(sub)` on an error's message. -/
def messageIncludes (e : AppError) (sub : String) : Bool :=
  containsSub (e.message.toList.map Char.toLower) sub.toList

/-- The catch-branch test of `processImage`: is the failure a memory/resource
message? -/
def isResourceErrorMessage (e : AppError) : Bool :=
  messageIncludes e "memory" || messageIncludes e "allocation" || messageIncludes e "heap"

/-- The exported `processImage`: outer boundary check, then the body in a
`try`/`catch` which maps memory-related messages to a 413
`RESOURCE_LIMIT_ERROR` and every other failure to
`new AppError('Error processing image: ...', 500)`. -/
def processImage (maxW maxH : Nat) (pathOk : Bool) (meta : ImageMeta)
    (opts : ConversionOptions) (outPathOk : Bool) (outputPath : String)
    (fileSizeMB : ℚ) (encode : ℚ × ℚ → ℚ → ImageMeta) : Except AppError ConversionResult :=
  if !pathOk then .error pathNotAllowedError
  else
    match processImageWithLimits maxW maxH pathOk meta opts outPathOk outputPath
        fileSizeMB encode with
    | .ok r => .ok r
    | .error e =>
      if isResourceErrorMessage e then
        .error { message := "Resource error processing image. The image might be too large.",
                 statusCode := 413, code := some "RESOURCE_LIMIT_ERROR" }
      else
        .error { message := "Error processing image: " ++ e.message,
                 statusCode := 500, code := none }

end ImageTransformer

namespace ImageTransformer

/-! ## Theorems about the converter limit handling (claim C7) -/

/-- **C7 (code bug).** A single 9000×9000 source at the default 4000×4000
limits: `processImageWithLimits` rejects it with the 413
`DIMENSION_LIMIT_ERROR` referencing the dimension limit, uniformly in the
codec oracle — so before any resize is attempted — but the exported
`processImage` `catch` re-wraps every non-memory-message error, so the
converter's caller receives a generic 500 without the 413 status or the
`DIMENSION_LIMIT_ERROR` code the inner check produced. -/
theorem oversized_image_rejected_before_resize_but_surfaced_as_500
    (encode : ℚ × ℚ → ℚ → ImageMeta) (fileSizeMB : ℚ) (opts : ConversionOptions)
    (outputPath : String) (outPathOk : Bool) :
    processImageWithLimits 4000 4000 true ⟨9000, 9000⟩ opts outPathOk outputPath
        fileSizeMB encode = .error (dimensionLimitError 4000 4000) ∧
    (dimensionLimitError 4000 4000).statusCode = 413 ∧
    (dimensionLimitError 4000 4000).code = some "DIMENSION_LIMIT_ERROR" ∧
    processImage 4000 4000 true ⟨9000, 9000⟩ opts outPathOk outputPath
        fileSizeMB encode =
      .error { message := "Error processing image: " ++ (dimensionLimitError 4000 4000).message,
               statusCode := 500, code := none } := by
  have hdim : checkDimensionLimits 4000 4000 ⟨9000, 9000⟩ =
      .error (dimensionLimitError 4000 4000) := by
    simp [checkDimensionLimits]
  have hinner : processImageWithLimits 4000 4000 true ⟨9000, 9000⟩ opts outPathOk outputPath
      fileSizeMB encode = .error (dimensionLimitError 4000 4000) := by
    simp [processImageWithLimits, hdim]
  have hmsg : isResourceErrorMessage (dimensionLimitError 4000 4000) = false := by decide
  refine ⟨hinner, rfl, rfl, ?_⟩
  simp [processImage, hinner, hmsg]

end ImageTransformer

namespace ImageTransformer

/-! ## Archive builder (`createZipFromImages`)

```
const output = fs.createWriteStream(zipPath);   // creates the file on disk
archive.pipe(output);
let totalSize = 0;
for (const image of processedImages) {
  if (!ensurePathIsWithinBoundary(image.path, tempDir)) throw new AppError('File path not allowed', 403);
  const stats = fs.statSync(image.path);
  totalSize += stats.size;
  if (totalSize > MAX_ZIP_SIZE) throw new AppError('Total image size exceeds allowed limit (.. MB)', 413, { code: 'ZIP_SIZE_LIMIT_ERROR' });
  archive.file(image.path, { name: fileName });
}
```

The file system is modelled as the list of paths that exist; creating the
write stream prepends `zipPath` to it, and a thrown size-limit error leaves
that entry in place (nothing in this function or its caller unlinks it).
Each processed image is (path, `statSync` size). -/

/-- The 413 thrown when the running total exceeds `MAX_ZIP_SIZE`.  (JS
computes `MAX_ZIP_SIZE / 1000000` in float; `Nat` division agrees on the
configured multiples of 10^6 such as the default 25000000.) -/
def zipSizeLimitError (maxZip : Nat) : AppError :=
  { message := "Total image size exceeds allowed limit (" ++ toString (maxZip / 1000000)
      ++ " MB)",
    statusCode := 413,
    code := some "ZIP_SIZE_LIMIT_ERROR" }

/-- The per-file loop of `createZipFromImages`: boundary check, `statSync`,
add the size to the running total, check the ceiling *before*
`archive.file`, then add the entry.  Returns the entries actually added to
the archive descriptor together with the abort error, if any. -/
def addImagesToArchive (maxZip : Nat) (inTemp : String → Bool) :
    List (String × Nat) → Nat → List String × Option AppError
  | [], _ => ([], none)
  | (p, size) :: rest, total =>
    if !(inTemp p) then ([], some pathNotAllowedError)
    else if total + size > maxZip then ([], some (zipSizeLimitError maxZip))
    else
      let r := addImagesToArchive maxZip inTemp rest (total + size)
      (p :: r.1, r.2)

/-- Modelled from the spec's words, for comparison: the entries the Archive
Builder may bundle — the longest prefix of the results whose cumulative
source size stays within the configured ceiling. -/
def entriesWithinLimit (maxZip : Nat) : List (String × Nat) → Nat → List String
  | [], _ => []
  | (p, size) :: rest, total =>
    if total + size > maxZip then [] else p :: entriesWithinLimit maxZip rest (total + size)

/-- Total `statSync` size of a result list. -/
def sumSizes (images : List (String × Nat)) : Nat := (images.map Prod.snd).sum

/-- `createZipFromImages` over the file-system model: check the zip path
boundary, open the write stream (which creates the file), run the add loop,
finalize.  Returns the promise outcome and the resulting file system. -/
def createZipFromImages (maxZip : Nat) (inTemp : String → Bool) (disk : List String)
    (images : List (String × Nat)) (zipPath : String) :
    Except AppError String × List String :=
  if !(inTemp zipPath) then (.error pathNotAllowedError, disk)
  else
    let disk' := zipPath :: disk
    match (addImagesToArchive maxZip inTemp images 0).2 with
    | some e => (.error e, disk')
    | none => (.ok zipPath, disk')

end ImageTransformer

namespace ImageTransformer

/-! ## Theorems about the archive builder (claim C8) -/

/-- **C8, counterexample.** Two results of 20 MB and 10 MB against the
default 25 MB ceiling: the builder aborts with the 413 size-limit error, but
the zip file created by the write stream is still on disk afterwards — a
partial archive *is* left behind, contradicting the claim. -/
theorem partial_archive_left_behind :
    createZipFromImages 25000000 (fun _ => true) []
        [("a.webp", 20000000), ("b.webp", 10000000)] "converted.zip"
      = (.error (zipSizeLimitError 25000000), ["converted.zip"]) ∧
    "converted.zip" ∈ (createZipFromImages 25000000 (fun _ => true) []
        [("a.webp", 20000000), ("b.webp", 10000000)] "converted.zip").2 := by
  constructor
  · rfl
  · rw [show (createZipFromImages 25000000 (fun _ => true) []
        [("a.webp", 20000000), ("b.webp", 10000000)] "converted.zip").2
      = ["converted.zip"] from rfl]
    exact List.mem_singleton.mpr rfl

theorem addImagesToArchive_entries (maxZip : Nat) (inTemp : String → Bool)
    (images : List (String × Nat)) (total : Nat)
    (hall : ∀ p ∈ images.map Prod.fst, inTemp p = true) :
    (addImagesToArchive maxZip inTemp images total).1 =
      entriesWithinLimit maxZip images total := by
  induction images generalizing total with
  | nil => rfl
  | cons img rest ih =>
    obtain ⟨p, size⟩ := img
    have hp : inTemp p = true := hall p (by simp)
    have hrest : ∀ q ∈ rest.map Prod.fst, inTemp q = true := by
      intro q hq
      exact hall q (by simp [hq])
    by_cases hsz : total + size > maxZip
    · simp [addImagesToArchive, entriesWithinLimit, hp, hsz]
    · simp [addImagesToArchive, entriesWithinLimit, hp, hsz, ih (total + size) hrest]

theorem addImagesToArchive_error (maxZip : Nat) (inTemp : String → Bool)
    (images : List (String × Nat)) (total : Nat)
    (hall : ∀ p ∈ images.map Prod.fst, inTemp p = true) (htot : total ≤ maxZip) :
    (addImagesToArchive maxZip inTemp images total).2 =
      if total + sumSizes images > maxZip then some (zipSizeLimitError maxZip) else none := by
  induction images generalizing total with
  | nil =>
    have hno : ¬ (total + sumSizes [] > maxZip) := by
      simp [sumSizes]
      omega
    rw [if_neg hno]
    rfl
  | cons img rest ih =>
    obtain ⟨p, size⟩ := img
    have hp : inTemp p = true := hall p (by simp)
    have hrest : ∀ q ∈ rest.map Prod.fst, inTemp q = true := by
      intro q hq
      exact hall q (by simp [hq])
    have hsum : sumSizes ((p, size) :: rest) = size + sumSizes rest := by
      simp [sumSizes]
    by_cases hsz : total + size > maxZip
    · have : total + sumSizes ((p, size) :: rest) > maxZip := by rw [hsum]; omega
      simp [addImagesToArchive, hp, hsz, this]
    · have h2 : total + size ≤ maxZip := by omega
      rw [show (addImagesToArchive maxZip inTemp ((p, size) :: rest) total).2
          = (addImagesToArchive maxZip inTemp rest (total + size)).2 by
        simp [addImagesToArchive, hp, hsz]]
      rw [ih (total + size) hrest h2, hsum]
      by_cases hc : total + size + sumSizes rest > maxZip
      · rw [if_pos hc, if_pos (by omega)]
      · rw [if_neg hc, if_neg (by omega)]

/-- **C8, amended.** The running total of source sizes is checked against the
configured ceiling before each file is added (the entries that make it into
the archive descriptor are exactly the longest prefix fitting the ceiling);
exceeding it aborts archive creation with the 413 size-limit error and the
archive path is never resolved as ready (not exposed) — but the partially
created archive file is left on disk (the write stream created it and
nothing deletes it). -/
theorem zip_size_ceiling_spec (maxZip : Nat) (inTemp : String → Bool) (disk : List String)
    (images : List (String × Nat)) (zipPath : String)
    (hall : ∀ p ∈ images.map Prod.fst, inTemp p = true) (hz : inTemp zipPath = true) :
    (addImagesToArchive maxZip inTemp images 0).1 = entriesWithinLimit maxZip images 0 ∧
    (sumSizes images ≤ maxZip →
      createZipFromImages maxZip inTemp disk images zipPath = (.ok zipPath, zipPath :: disk)) ∧
    (sumSizes images > maxZip →
      (createZipFromImages maxZip inTemp disk images zipPath).1 =
          .error (zipSizeLimitError maxZip) ∧
      zipPath ∈ (createZipFromImages maxZip inTemp disk images zipPath).2) := by
  have herr := addImagesToArchive_error maxZip inTemp images 0 hall (Nat.zero_le _)
  refine ⟨addImagesToArchive_entries maxZip inTemp images 0 hall, ?_, ?_⟩
  · intro hle
    have : (addImagesToArchive maxZip inTemp images 0).2 = none := by
      rw [herr, if_neg (by omega)]
    simp [createZipFromImages, hz, this]
  · intro hgt
    have : (addImagesToArchive maxZip inTemp images 0).2 =
        some (zipSizeLimitError maxZip) := by
      rw [herr, if_pos (by omega)]
    constructor
    · simp [createZipFromImages, hz, this]
    · simp [createZipFromImages, hz, this]

/-- Witness for `zip_size_ceiling_spec`: one 1000-byte result against the
default 25 MB ceiling; the build succeeds and the zip is on disk. -/
theorem zip_size_ceiling_spec_witness :
    (addImagesToArchive 25000000 (fun _ => true) [("a.webp", 1000)] 0).1 =
      entriesWithinLimit 25000000 [("a.webp", 1000)] 0 ∧
    createZipFromImages 25000000 (fun _ => true) [] [("a.webp", 1000)] "z.zip" =
      (.ok "z.zip", ["z.zip"]) := by
  have h := zip_size_ceiling_spec 25000000 (fun _ => true) [] [("a.webp", 1000)] "z.zip"
    (by intro p hp; rfl) rfl
  exact ⟨h.1, h.2.1 (by norm_num [sumSizes])⟩

end ImageTransformer

namespace ImageTransformer

/-! ## Request orchestrator (`imageController.ts`, `convertImages`)

The HTTP handler, embedded over an explicit file-system model (the list of
paths created during the request that currently exist).  Faithful points:

* the uploaded files are already on disk when the handler starts (multer's
  `diskStorage` wrote them while parsing the multipart body, *before* any
  controller code ran);
* the handler checks the file count, then the quota, then validates options;
* `allTempFiles` collects the upload paths only after validation, the output
  paths only after *all* conversions succeeded, and the zip path only after
  `createZipFromImages` resolved;
* `Promise.all` runs the per-file conversions independently, so when one
  file fails the outputs of the files that succeeded are still written to
  disk (the rejection only short-circuits the join);
* the catch block deletes exactly the entries of `allTempFiles` (via
  `safelyDeleteFile`, which only deletes existing files inside the temp
  boundary) and then sends the error response.

The per-file conversion is the oracle `conv` (an `Except`-valued function,
abstracting `processImage`); `sizes` is `statSync`.
-/

/-- The observable steps of one request, in execution order. -/
inductive Stage
  | fileCountCheck
  | quotaCheck
  | validateOptions
  | convertFiles
  | buildArchive
  | immediateCleanup
  | respondSuccess
  | scheduleZipCleanup
  | errorCleanup
  | respondError
  deriving DecidableEq, Repr

/-- The JSON response sent to the client. -/
structure HttpResponse where
  status : Nat
  success : Bool
  zipUrl : Option String
  errorCode : Option String
  deriving DecidableEq, Repr

/-- Everything observable about one request: response, files still on disk
afterwards, files scheduled for delayed deletion, quota map, event trace. -/
structure RequestOutcome where
  response : HttpResponse
  disk : List String
  scheduledForDelayedCleanup : List String
  quotas : QuotaMap
  trace : List Stage

/-- `safelyDeleteFile` applied to each path of `toDelete`: a file disappears
from disk iff it is listed and inside the temp boundary. -/
def deleteFiles (inTemp : String → Bool) (toDelete : List String) (disk : List String) :
    List String :=
  disk.filter (fun p => !(toDelete.contains p && inTemp p))

/-- The catch block: immediate cleanup of `allTempFiles`, then the error
response (`success: false`, the `AppError`'s status and code). -/
def respondWithError (inTemp : String → Bool) (e : AppError) (allTempFiles : List String)
    (disk : List String) (quotas : QuotaMap) (trace : List Stage) : RequestOutcome :=
  { response := { status := e.statusCode, success := false, zipUrl := none,
                  errorCode := e.code },
    disk := deleteFiles inTemp allTempFiles disk,
    scheduledForDelayedCleanup := [],
    quotas := quotas,
    trace := trace ++ [.errorCleanup, .respondError] }

/-- First rejection of the `Promise.all` over the per-file conversions. -/
def firstConvError (conv : String → Except AppError String) (files : List String) :
    Option AppError :=
  files.findSome? (fun f =>
    match conv f with
    | .error e => some e
    | .ok _ => none)

/-- Output paths of the conversions that succeeded (these files are written
to disk regardless of other files' failures). -/
def successfulOutputs (conv : String → Except AppError String) (files : List String) :
    List String :=
  files.filterMap (fun f => (conv f).toOption)

/-- `convertImages` (`imageController.ts` lines 69–257). -/
def convertImages (maxFiles dailyQuota today : Nat) (ip : String) (quotas : QuotaMap)
    (files : List String) (raw : RawOptions)
    (conv : String → Except AppError String) (sizes : String → Nat)
    (inTemp : String → Bool) (maxZip : Nat) (zipPath : String) : RequestOutcome :=
  let disk0 := files
  if files.length > maxFiles then
    respondWithError inTemp
      { message := "Maximum number of files exceeded", statusCode := 400, code := none }
      [] disk0 quotas [.fileCountCheck]
  else
    let qres := checkIPQuota dailyQuota today ip quotas
    if !qres.1 then
      respondWithError inTemp
        { message := "You have exceeded your daily processing quota",
          statusCode := 429, code := some "QUOTA_EXCEEDED" }
        [] disk0 qres.2 [.fileCountCheck, .quotaCheck]
    else
      match conversionOptionsSchema raw with
      | .error _ =>
        respondWithError inTemp
          { message := "Invalid conversion options", statusCode := 400,
            code := some "VALIDATION_ERROR" }
          [] disk0 qres.2 [.fileCountCheck, .quotaCheck, .validateOptions]
      | .ok _opts =>
        let allTempFiles := files
        let disk1 := disk0 ++ successfulOutputs conv files
        match firstConvError conv files with
        | some e =>
          respondWithError inTemp e allTempFiles disk1 qres.2
            [.fileCountCheck, .quotaCheck, .validateOptions, .convertFiles]
        | none =>
          let outputs := successfulOutputs conv files
          let allTempFiles2 := allTempFiles ++ outputs
          let zres := createZipFromImages maxZip inTemp disk1
            (outputs.map (fun p => (p, sizes p))) zipPath
          match zres.1 with
          | .error e =>
            respondWithError inTemp e allTempFiles2 zres.2 qres.2
              [.fileCountCheck, .quotaCheck, .validateOptions, .convertFiles, .buildArchive]
          | .ok zp =>
            { response := { status := 200, success := true,
                            zipUrl := some ("/temp/output/" ++ zp), errorCode := none },
              disk := deleteFiles inTemp (files ++ outputs) zres.2,
              scheduledForDelayedCleanup := [zp],
              quotas := qres.2,
              trace := [.fileCountCheck, .quotaCheck, .validateOptions, .convertFiles,
                        .buildArchive, .immediateCleanup, .respondSuccess,
                        .scheduleZipCleanup] }

end ImageTransformer

namespace ImageTransformer

/-! ## Theorems about the request orchestrator (claims C1 and C4) -/

theorem deleteFiles_nil (inTemp : String → Bool) (disk : List String) :
    deleteFiles inTemp [] disk = disk := by
  simp [deleteFiles]

/-- **C1 (code bug).** A two-file batch in which the first file converts
successfully and the second fails with a codec error: the error cleanup
deletes only `allTempFiles`, which at that point holds just the two uploaded
inputs — the output written by the successful conversion (`"o1"`, created
during this request) survives on disk after the error response, so it is
false that zero files created during the request remain. -/
theorem partial_output_survives_failed_batch :
    (convertImages 5 100 0 "203.0.113.7" QuotaMap.empty ["u1", "u2"]
        { format := some "webp", width := none, height := none,
          quality := none, maintainAspectRatio := none }
        (fun f => if f = "u1" then .ok "o1"
                  else .error { message := "Error processing image: corrupt input",
                                statusCode := 500, code := none })
        (fun _ => 0) (fun _ => true) 25000000 "z.zip").response.success = false ∧
    (convertImages 5 100 0 "203.0.113.7" QuotaMap.empty ["u1", "u2"]
        { format := some "webp", width := none, height := none,
          quality := none, maintainAspectRatio := none }
        (fun f => if f = "u1" then .ok "o1"
                  else .error { message := "Error processing image: corrupt input",
                                statusCode := 500, code := none })
        (fun _ => 0) (fun _ => true) 25000000 "z.zip").response.status = 500 ∧
    (convertImages 5 100 0 "203.0.113.7" QuotaMap.empty ["u1", "u2"]
        { format := some "webp", width := none, height := none,
          quality := none, maintainAspectRatio := none }
        (fun f => if f = "u1" then .ok "o1"
                  else .error { message := "Error processing image: corrupt input",
                                statusCode := 500, code := none })
        (fun _ => 0) (fun _ => true) 25000000 "z.zip").disk = ["o1"] := by
  refine ⟨rfl, rfl, rfl⟩

/-- **C4, counterexample.** A quota-exhausted client uploads one file: the
request is rejected with 429, but the uploaded file — written to the uploads
directory by the multer storage layer before the controller ran, and not yet
on the `allTempFiles` cleanup list — remains on disk, contradicting "no
files appear in the upload or output directories for a rejected request".
The trace also shows the file-count check running *before* the quota check. -/
theorem quota_rejected_request_leaves_upload_on_disk :
    (convertImages 5 100 0 "203.0.113.7" (QuotaMap.empty.set "203.0.113.7" ⟨100, 0⟩)
        ["u1"]
        { format := some "webp", width := none, height := none,
          quality := none, maintainAspectRatio := none }
        (fun _ => .ok "o1") (fun _ => 0) (fun _ => true) 25000000 "z.zip").response.status
      = 429 ∧
    (convertImages 5 100 0 "203.0.113.7" (QuotaMap.empty.set "203.0.113.7" ⟨100, 0⟩)
        ["u1"]
        { format := some "webp", width := none, height := none,
          quality := none, maintainAspectRatio := none }
        (fun _ => .ok "o1") (fun _ => 0) (fun _ => true) 25000000 "z.zip").disk = ["u1"] ∧
    (convertImages 5 100 0 "203.0.113.7" (QuotaMap.empty.set "203.0.113.7" ⟨100, 0⟩)
        ["u1"]
        { format := some "webp", width := none, height := none,
          quality := none, maintainAspectRatio := none }
        (fun _ => .ok "o1") (fun _ => 0) (fun _ => true) 25000000 "z.zip").trace =
      [.fileCountCheck, .quotaCheck, .errorCleanup, .respondError] := by
  refine ⟨rfl, rfl, rfl⟩

/-- **C4, amended.** The quota check runs after the file-count check but
before options validation, before any file content is read and before
anything is handed to the Converter or Archive Builder: a quota-rejected
request answers 429/`QUOTA_EXCEEDED` with no download reference, its outcome
is independent of the conversion and archiving oracles (they are never
consulted), no output or archive file is created — but the uploaded input
files, already stored by the upload middleware, remain on disk. -/
theorem quota_rejection_short_circuit (maxFiles dailyQuota today : Nat) (ip : String)
    (quotas : QuotaMap) (files : List String) (raw : RawOptions)
    (conv conv' : String → Except AppError String) (sizes sizes' : String → Nat)
    (inTemp : String → Bool) (maxZip maxZip' : Nat) (zipPath zipPath' : String)
    (hcount : ¬ files.length > maxFiles)
    (hq : (checkIPQuota dailyQuota today ip quotas).1 = false) :
    (convertImages maxFiles dailyQuota today ip quotas files raw conv sizes inTemp
        maxZip zipPath).response.status = 429 ∧
    (convertImages maxFiles dailyQuota today ip quotas files raw conv sizes inTemp
        maxZip zipPath).response.errorCode = some "QUOTA_EXCEEDED" ∧
    (convertImages maxFiles dailyQuota today ip quotas files raw conv sizes inTemp
        maxZip zipPath).response.zipUrl = none ∧
    (convertImages maxFiles dailyQuota today ip quotas files raw conv sizes inTemp
        maxZip zipPath).disk = files ∧
    (convertImages maxFiles dailyQuota today ip quotas files raw conv sizes inTemp
        maxZip zipPath).trace =
      [.fileCountCheck, .quotaCheck, .errorCleanup, .respondError] ∧
    convertImages maxFiles dailyQuota today ip quotas files raw conv' sizes' inTemp
        maxZip' zipPath' =
      convertImages maxFiles dailyQuota today ip quotas files raw conv sizes inTemp
        maxZip zipPath := by
  have hred : ∀ (cv : String → Except AppError String) (sz : String → Nat)
      (mz : Nat) (zp : String),
      convertImages maxFiles dailyQuota today ip quotas files raw cv sz inTemp mz zp =
        respondWithError inTemp
          { message := "You have exceeded your daily processing quota",
            statusCode := 429, code := some "QUOTA_EXCEEDED" }
          [] files (checkIPQuota dailyQuota today ip quotas).2
          [.fileCountCheck, .quotaCheck] := by
    intro cv sz mz zp
    simp only [convertImages, hq, Bool.not_false, if_true, hcount, if_false]
  rw [hred conv sizes maxZip zipPath, hred conv' sizes' maxZip' zipPath']
  refine ⟨rfl, rfl, rfl, deleteFiles_nil inTemp files, rfl, rfl⟩

/-- Witness for `quota_rejection_short_circuit` at the concrete
quota-exhausted input. -/
theorem quota_rejection_short_circuit_witness :
    (convertImages 5 100 0 "203.0.113.7" (QuotaMap.empty.set "203.0.113.7" ⟨100, 0⟩)
        ["u1"]
        { format := some "gif", width := none, height := none,
          quality := none, maintainAspectRatio := none }
        (fun _ => .ok "o9") (fun _ => 7) (fun _ => true) 25000000 "w.zip").response.status
      = 429 ∧
    (convertImages 5 100 0 "203.0.113.7" (QuotaMap.empty.set "203.0.113.7" ⟨100, 0⟩)
        ["u1"]
        { format := some "gif", width := none, height := none,
          quality := none, maintainAspectRatio := none }
        (fun _ => .ok "o9") (fun _ => 7) (fun _ => true) 25000000 "w.zip").disk = ["u1"] := by
  have h := quota_rejection_short_circuit 5 100 0 "203.0.113.7"
    (QuotaMap.empty.set "203.0.113.7" ⟨100, 0⟩) ["u1"]
    { format := some "gif", width := none, height := none,
      quality := none, maintainAspectRatio := none }
    (fun _ => .ok "o9") (fun _ => .ok "o9") (fun _ => 7) (fun _ => 7)
    (fun _ => true) 25000000 25000000 "w.zip" "w.zip"
    (by decide) (by decide)
  exact ⟨h.1, h.2.2.2.1⟩

end ImageTransformer

namespace ImageTransformer

/-! ## Cleanup routines (`safelyDeleteFile`, `cleanTempFiles`)

`safelyDeleteFile` (uploadMiddleware.ts lines 121–143): the whole body sits
in a `try`; `fs.unlinkSync` may throw (permission error), the `catch` logs
and returns `false`.  `cleanTempFiles` (current ESM imageProcessor module):
inside the scheduled timer each path gets a boundary check and a `try` whose
body calls the *callback-based* `fs.unlink`, whose error is delivered to the
callback and logged there — it cannot throw out of the routine.

File-system faults are oracles: `fsExists` models `fs.existsSync` (which
never throws) and `unlinkFails p = some msg` models an unlink failing with
`msg` (file vanished between check and unlink, permission error, ...).  An
exception escaping a routine is an `Except.error`; a routine that never
throws always returns `.ok`. -/

/-- Log entries emitted by the deletion routines. -/
inductive LogEvent
  | outsideTempWarning (p : String)
  | deleteError (p msg : String)
  | scheduledDeleted (p : String)
  | scheduledDeleteError (p msg : String)
  | scheduledSkippedMissing (p : String)
  | scheduledOutsideTempWarning (p : String)
  deriving DecidableEq, Repr

/-- The `try` body of `safelyDeleteFile`: exists check, boundary check,
`fs.unlinkSync` (which may throw). -/
def safelyDeleteFileBody (fsExists : String → Bool) (unlinkFails : String → Option String)
    (inTemp : String → Bool) (p : String) : Except String (Bool × List LogEvent) :=
  if fsExists p then
    if !(inTemp p) then
      .ok (false, [.outsideTempWarning p])
    else
      match unlinkFails p with
      | some msg => .error msg
      | none => .ok (true, [])
  else
    .ok (false, [])

/-- `safelyDeleteFile`: body plus the `catch` that logs the failure and
returns `false`. -/
def safelyDeleteFile (fsExists : String → Bool) (unlinkFails : String → Option String)
    (inTemp : String → Bool) (p : String) : Except String (Bool × List LogEvent) :=
  match safelyDeleteFileBody fsExists unlinkFails inTemp p with
  | .ok r => .ok r
  | .error msg => .ok (false, [.deleteError p msg])

/-- One path of the `cleanTempFiles` timer callback: boundary check, then a
`try` around `existsSync` + callback-based `fs.unlink`; an unlink failure is
delivered to the callback and logged. -/
def cleanTempFileStep (fsExists : String → Bool) (unlinkFails : String → Option String)
    (inTemp : String → Bool) (p : String) : Except String (List LogEvent) :=
  if inTemp p then
    .ok (if fsExists p then
          match unlinkFails p with
          | some msg => [.scheduledDeleteError p msg]
          | none => [.scheduledDeleted p]
        else [.scheduledSkippedMissing p])
  else
    .ok [.scheduledOutsideTempWarning p]

/-- The `cleanTempFiles` timer callback over the whole path list, collecting
all log events; an exception in any step would abort the `forEach`. -/
def cleanTempFiles (fsExists : String → Bool) (unlinkFails : String → Option String)
    (inTemp : String → Bool) : List String → Except String (List LogEvent)
  | [] => .ok []
  | p :: rest =>
    match cleanTempFileStep fsExists unlinkFails inTemp p with
    | .error e => .error e
    | .ok logs =>
      match cleanTempFiles fsExists unlinkFails inTemp rest with
      | .error e => .error e
      | .ok logs' => .ok (logs ++ logs')

/-- A computation whose exceptions never escape. -/
def returnsNormally {α : Type} (x : Except String α) : Prop := ∃ r, x = .ok r

/-- **C9.** For every file-system behaviour (including unlink failures such
as a vanished file or a permission error) and every path: both deletion
routines return normally — no exception escapes `safelyDeleteFile` or the
`cleanTempFiles` callback — and an unlink failure is logged (and, for
`safelyDeleteFile`, reported as `false`) rather than escalated. -/
theorem cleanup_failures_logged_not_escalated (fsExists : String → Bool)
    (unlinkFails : String → Option String) (inTemp : String → Bool)
    (p : String) (paths : List String) (msg : String) :
    returnsNormally (safelyDeleteFile fsExists unlinkFails inTemp p) ∧
    (fsExists p = true → inTemp p = true → unlinkFails p = some msg →
      safelyDeleteFile fsExists unlinkFails inTemp p =
        .ok (false, [.deleteError p msg])) ∧
    returnsNormally (cleanTempFiles fsExists unlinkFails inTemp paths) ∧
    (inTemp p = true → fsExists p = true → unlinkFails p = some msg →
      cleanTempFileStep fsExists unlinkFails inTemp p =
        .ok [.scheduledDeleteError p msg]) := by
  refine ⟨?_, ?_, ?_, ?_⟩
  · unfold safelyDeleteFile safelyDeleteFileBody
    by_cases hex : fsExists p
    · by_cases hit : inTemp p
      · rcases hu : unlinkFails p with _ | m
        · exact ⟨(true, []), by simp [hex, hit, hu]⟩
        · exact ⟨(false, [.deleteError p m]), by simp [hex, hit, hu]⟩
      · exact ⟨(false, [.outsideTempWarning p]), by simp [hex, hit]⟩
    · exact ⟨(false, []), by simp [hex]⟩
  · intro hex hit hu
    unfold safelyDeleteFile safelyDeleteFileBody
    simp [hex, hit, hu]
  · induction paths with
    | nil => exact ⟨[], rfl⟩
    | cons q rest ih =>
      obtain ⟨logs', hrest⟩ := ih
      have hstep : ∃ logs, cleanTempFileStep fsExists unlinkFails inTemp q = .ok logs := by
        unfold cleanTempFileStep
        by_cases hq : inTemp q
        · rw [if_pos hq]
          exact ⟨_, rfl⟩
        · rw [if_neg hq]
          exact ⟨_, rfl⟩
      obtain ⟨logs, hlogs⟩ := hstep
      exact ⟨logs ++ logs', by simp [cleanTempFiles, hlogs, hrest]⟩
  · intro hit hex hu
    unfold cleanTempFileStep
    simp [hit, hex, hu]

/-- Witness for `cleanup_failures_logged_not_escalated`: a file that exists
inside the boundary whose unlink fails with "EPERM" — both routines return
normally and log the failure. -/
theorem cleanup_failures_logged_not_escalated_witness :
    safelyDeleteFile (fun _ => true) (fun _ => some "EPERM") (fun _ => true) "f" =
      .ok (false, [.deleteError "f" "EPERM"]) ∧
    cleanTempFileStep (fun _ => true) (fun _ => some "EPERM") (fun _ => true) "f" =
      .ok [.scheduledDeleteError "f" "EPERM"] := by
  have h := cleanup_failures_logged_not_escalated (fun _ => true) (fun _ => some "EPERM")
    (fun _ => true) "f" ["f"] "EPERM"
  exact ⟨h.2.1 rfl rfl rfl, h.2.2.2 rfl rfl rfl⟩

end ImageTransformer

namespace ImageTransformer

/-! ## Upload filename sanitisation (`uploadMiddleware.ts`)

```
const sanitizeFileName = (filename) => {
  let sanitized = filename.replace(/[^a-zA-Z0-9._-]/g, '_').replace(/\s+/g, '_');
  if (sanitized.length > 100) {
    const ext = path.extname(sanitized);
    const name = path.basename(sanitized, ext);
    sanitized = name.substring(0, 90) + ext;
  }
  return sanitized;
};
const generateUniqueFilename = (originalname) => {
  const timestamp = Date.now();
  const randomString = crypto.randomBytes(8).toString('hex');
  const ext = path.extname(originalname);
  const sanitizedName = sanitizeFileName(path.basename(originalname, ext));
  return sanitizedName + '-' + timestamp + '-' + randomString + ext;
};
```

JavaScript strings are `List Char` here.  `path.extname` / `path.basename`
are the POSIX Node implementations (the backend runs on Linux): `extname`
takes the portion of the part after the last `'/'` from its last `'.'`,
returning `""` when there is no dot, when the only dot leads a hidden-file
name, or for `".."`; `basename(s, ext)` strips a trailing `ext` unless the
basename *is* `ext`.  The timestamp and the random hex string are runtime
values, passed as parameters. -/

/-- The character class `[a-zA-Z0-9._-]` of the sanitising regex. -/
def allowedFilenameChar (c : Char) : Bool :=
  c.isAlpha || c.isDigit || c = '.' || c = '_' || c = '-'

/-- `.replace(/[^a-zA-Z0-9._-]/g, '_')`. -/
def replaceDisallowed (s : List Char) : List Char :=
  s.map (fun c => if allowedFilenameChar c then c else '_')

/-- `.replace(/\s+/g, '_')`: each maximal whitespace run becomes one `'_'`
(the flag records whether the previous character was whitespace). -/
def collapseWhitespaceAux : Bool → List Char → List Char
  | _, [] => []
  | prevWs, c :: cs =>
    if c.isWhitespace then
      if prevWs then collapseWhitespaceAux true cs
      else '_' :: collapseWhitespaceAux true cs
    else c :: collapseWhitespaceAux false cs

/-- `.replace(/\s+/g, '_')` on a whole string. -/
def collapseWhitespace (s : List Char) : List Char := collapseWhitespaceAux false s

/-- The part of a POSIX path after its last `'/'`. -/
def afterLastSlash (s : List Char) : List Char :=
  (s.reverse.takeWhile (fun c => c ≠ '/')).reverse

/-- POSIX `path.extname`. -/
def extname (s : List Char) : List Char :=
  let b := afterLastSlash s
  let tail := b.reverse.takeWhile (fun c => c ≠ '.')
  if tail.length = b.length then []
  else if tail.length + 1 = b.length then []
  else if b = ['.', '.'] then []
  else b.drop (b.length - (tail.length + 1))

/-- POSIX `path.basename(s, ext)`. -/
def basenameStrip (s ext : List Char) : List Char :=
  let b := afterLastSlash s
  if ext ≠ [] ∧ ext.length < b.length ∧ ext.isSuffixOf b then
    b.take (b.length - ext.length)
  else b

/-- `sanitizeFileName` from `uploadMiddleware.ts` (lines 22–34). -/
def sanitizeFileName (filename : List Char) : List Char :=
  let sanitized := collapseWhitespace (replaceDisallowed filename)
  if sanitized.length > 100 then
    (basenameStrip sanitized (extname sanitized)).take 90 ++ extname sanitized
  else sanitized

/-- `generateUniqueFilename` (lines 37–44); `timestamp` is the decimal
`Date.now()` digits, `randomString` the 16 hex digits of
`crypto.randomBytes(8).toString('hex')`. -/
def generateUniqueFilename (timestamp randomString originalname : List Char) : List Char :=
  let ext := extname originalname
  let sanitizedName := sanitizeFileName (basenameStrip originalname ext)
  sanitizedName ++ '-' :: (timestamp ++ '-' :: (randomString ++ ext))

/-- An original filename of 120 characters: 95 `'a'`s, a dot, 20 `'b'`s, and
`.png`. -/
def c10Original : List Char :=
  List.replicate 95 'a' ++ '.' :: (List.replicate 20 'b' ++ ['.', 'p', 'n', 'g'])

set_option maxRecDepth 40000 in
/-- **C10, counterexample.** The claim says the stored name's sanitized base
is truncated to at most 100 characters.  For `c10Original` the base passed
to `sanitizeFileName` has 116 characters, and the truncation branch keeps 90
characters of the stem *plus the whole inner extension* (21 characters), so
the sanitized base of the stored filename has length 111 > 100 (and with a
13-digit timestamp and the 16-digit random string the stored name is 146
characters, not the ≤ 135 the claim implies). -/
theorem sanitized_base_exceeds_100 :
    (sanitizeFileName (basenameStrip c10Original (extname c10Original))).length = 111 ∧
    ¬ (sanitizeFileName (basenameStrip c10Original (extname c10Original))).length ≤ 100 ∧
    (generateUniqueFilename ("1700000000000".toList) ("0123456789abcdef".toList)
        c10Original).length = 146 := by
  refine ⟨by decide, by decide, by decide⟩

end ImageTransformer

namespace ImageTransformer

/-! ## Theorems about the stored filename (claim C10) -/

theorem collapseWhitespaceAux_mem (s : List Char) :
    ∀ (b : Bool), ∀ c ∈ collapseWhitespaceAux b s, c = '_' ∨ c ∈ s := by
  induction s with
  | nil =>
    intro b c hc
    simp [collapseWhitespaceAux] at hc
  | cons a t ih =>
    intro b c hc
    unfold collapseWhitespaceAux at hc
    by_cases hw : a.isWhitespace
    · rw [if_pos hw] at hc
      by_cases hb : b = true
      · rw [if_pos hb] at hc
        rcases ih true c hc with h | h
        · exact Or.inl h
        · exact Or.inr (List.mem_cons_of_mem a h)
      · rw [if_neg hb] at hc
        rcases List.mem_cons.mp hc with h | h
        · exact Or.inl h
        · rcases ih true c h with h2 | h2
          · exact Or.inl h2
          · exact Or.inr (List.mem_cons_of_mem a h2)
    · rw [if_neg hw] at hc
      rcases List.mem_cons.mp hc with h | h
      · exact Or.inr (h ▸ List.mem_cons_self a t)
      · rcases ih false c h with h2 | h2
        · exact Or.inl h2
        · exact Or.inr (List.mem_cons_of_mem a h2)

theorem replaceDisallowed_allowed (s : List Char) :
    ∀ c ∈ replaceDisallowed s, allowedFilenameChar c = true := by
  intro c hc
  rcases List.mem_map.mp hc with ⟨a, _, ha⟩
  by_cases h : allowedFilenameChar a = true
  · rw [if_pos h] at ha
    rw [← ha]
    exact h
  · rw [if_neg h] at ha
    rw [← ha]
    rfl

theorem afterLastSlash_subset (s : List Char) : afterLastSlash s ⊆ s := by
  intro c hc
  rw [afterLastSlash, List.mem_reverse] at hc
  exact List.mem_reverse.mp ((List.takeWhile_prefix _).sublist.subset hc)

theorem slash_not_mem_afterLastSlash (s : List Char) : '/' ∉ afterLastSlash s := by
  intro h
  rw [afterLastSlash, List.mem_reverse] at h
  have := List.mem_takeWhile_imp h
  simp at this

theorem extname_cases (s : List Char) :
    extname s = [] ∨ ∃ n, extname s = (afterLastSlash s).drop n := by
  simp only [extname]
  by_cases h1 : ((afterLastSlash s).reverse.takeWhile (fun c => c ≠ '.')).length
      = (afterLastSlash s).length
  · rw [if_pos h1]
    exact Or.inl rfl
  · rw [if_neg h1]
    by_cases h2 : ((afterLastSlash s).reverse.takeWhile (fun c => c ≠ '.')).length + 1
        = (afterLastSlash s).length
    · rw [if_pos h2]
      exact Or.inl rfl
    · rw [if_neg h2]
      by_cases h3 : afterLastSlash s = ['.', '.']
      · rw [if_pos h3]
        exact Or.inl rfl
      · rw [if_neg h3]
        exact Or.inr ⟨_, rfl⟩

theorem extname_subset (s : List Char) : extname s ⊆ afterLastSlash s := by
  rcases extname_cases s with h | ⟨n, h⟩ <;> rw [h]
  · exact List.nil_subset _
  · exact List.drop_subset n _

theorem slash_not_mem_extname (s : List Char) : '/' ∉ extname s :=
  fun h => slash_not_mem_afterLastSlash s (extname_subset s h)

theorem basenameStrip_subset (s ext : List Char) : basenameStrip s ext ⊆ afterLastSlash s := by
  simp only [basenameStrip]
  by_cases h : ext ≠ [] ∧ ext.length < (afterLastSlash s).length ∧ ext.isSuffixOf (afterLastSlash s)
  · rw [if_pos h]
    exact List.take_subset _ _
  · rw [if_neg h]
    exact fun c hc => hc

theorem sanitizeFileName_chars (s : List Char) :
    ∀ c ∈ sanitizeFileName s, allowedFilenameChar c = true := by
  have hmid : ∀ d ∈ collapseWhitespace (replaceDisallowed s), allowedFilenameChar d = true := by
    intro d hd
    rcases collapseWhitespaceAux_mem (replaceDisallowed s) false d hd with h | h
    · rw [h]
      rfl
    · exact replaceDisallowed_allowed s d h
  intro c hc
  simp only [sanitizeFileName] at hc
  by_cases hlen : (collapseWhitespace (replaceDisallowed s)).length > 100
  · rw [if_pos hlen] at hc
    rcases List.mem_append.mp hc with h | h
    · exact hmid c (afterLastSlash_subset _
        (basenameStrip_subset _ _ (List.take_subset _ _ h)))
    · exact hmid c (afterLastSlash_subset _ (extname_subset _ h))
  · rw [if_neg hlen] at hc
    exact hmid c hc

theorem slash_not_mem_generateUniqueFilename (ts rnd name : List Char)
    (hts : '/' ∉ ts) (hrs : '/' ∉ rnd) :
    '/' ∉ generateUniqueFilename ts rnd name := by
  intro h
  simp only [generateUniqueFilename] at h
  rcases List.mem_append.mp h with h | h
  · exact absurd (sanitizeFileName_chars _ _ h) (by decide)
  · rcases List.mem_cons.mp h with h | h
    · exact absurd h (by decide)
    rcases List.mem_append.mp h with h | h
    · exact hts h
    rcases List.mem_cons.mp h with h | h
    · exact absurd h (by decide)
    rcases List.mem_append.mp h with h | h
    · exact hrs h
    · exact slash_not_mem_extname name h

/-- POSIX path normalisation at the segment level: empty and `"."` segments
vanish, `".."` pops the previous segment, anything else is appended. -/
def normalizeSegments (segs : List (List Char)) : List (List Char) :=
  segs.foldl
    (fun acc seg =>
      if seg = [] ∨ seg = ['.'] then acc
      else if seg = ['.', '.'] then acc.dropLast
      else acc ++ [seg]) []

theorem normalizeSegments_append_file (dirs : List (List Char)) (f : List Char)
    (h1 : f ≠ []) (h2 : f ≠ ['.']) (h3 : f ≠ ['.', '.']) :
    normalizeSegments (dirs ++ [f]) = normalizeSegments dirs ++ [f] := by
  unfold normalizeSegments
  rw [List.foldl_append]
  simp [h1, h2, h3]

theorem dash_mem_generateUniqueFilename (ts rnd name : List Char) :
    ('-' : Char) ∈ generateUniqueFilename ts rnd name := by
  simp only [generateUniqueFilename]
  exact List.mem_append.mpr (Or.inr (List.mem_cons_self _ _))

/-- **C10, amended.** The stored on-disk filename is the original base name
(original extension stripped) with every character outside `[a-zA-Z0-9._-]`
replaced by an underscore and whitespace runs collapsed; when that exceeds
100 characters it is truncated to the first 90 characters of its stem *plus
its own inner extension* — which can leave more than 100 characters when
that inner extension is longer than 10 — followed by `-`, the timestamp,
`-`, the 16-hex-digit random string and the original extension.  Every
character of the sanitized base is in the allowed class, the stored filename
contains no path separator, and joining it to the uploads directory
normalises to a path directly inside that directory. -/
theorem generateUniqueFilename_spec (ts rnd name : List Char)
    (hts : '/' ∉ ts) (hrs : '/' ∉ rnd) :
    generateUniqueFilename ts rnd name =
      sanitizeFileName (basenameStrip name (extname name)) ++
        '-' :: (ts ++ '-' :: (rnd ++ extname name)) ∧
    (∀ c ∈ sanitizeFileName (basenameStrip name (extname name)),
      allowedFilenameChar c = true) ∧
    ((collapseWhitespace (replaceDisallowed (basenameStrip name (extname name)))).length ≤ 100 →
      sanitizeFileName (basenameStrip name (extname name)) =
        collapseWhitespace (replaceDisallowed (basenameStrip name (extname name)))) ∧
    (100 < (collapseWhitespace (replaceDisallowed (basenameStrip name (extname name)))).length →
      sanitizeFileName (basenameStrip name (extname name)) =
        (basenameStrip
            (collapseWhitespace (replaceDisallowed (basenameStrip name (extname name))))
            (extname (collapseWhitespace
              (replaceDisallowed (basenameStrip name (extname name)))))).take 90 ++
          extname (collapseWhitespace (replaceDisallowed (basenameStrip name (extname name))))) ∧
    '/' ∉ generateUniqueFilename ts rnd name ∧
    (∀ dirs : List (List Char),
      normalizeSegments (dirs ++ [generateUniqueFilename ts rnd name]) =
        normalizeSegments dirs ++ [generateUniqueFilename ts rnd name]) := by
  have hdash := dash_mem_generateUniqueFilename ts rnd name
  refine ⟨rfl, sanitizeFileName_chars _, ?_, ?_, slash_not_mem_generateUniqueFilename ts rnd name hts hrs, ?_⟩
  · intro hle
    simp only [sanitizeFileName]
    rw [if_neg (by omega)]
  · intro hgt
    simp only [sanitizeFileName]
    rw [if_pos (by omega)]
  · intro dirs
    refine normalizeSegments_append_file dirs _ ?_ ?_ ?_
    · intro he
      rw [he] at hdash
      exact absurd hdash (List.not_mem_nil _)
    · intro he
      rw [he] at hdash
      simp at hdash
    · intro he
      rw [he] at hdash
      simp at hdash

set_option maxRecDepth 40000 in
/-- Witness for `generateUniqueFilename_spec` at a concrete input: original
name `"photo 1.png"`, a 13-digit timestamp and a 16-hex-digit random string;
the stored name is `photo_1-1700000000000-0123456789abcdef.png`. -/
theorem generateUniqueFilename_spec_witness :
    generateUniqueFilename ("1700000000000".toList) ("0123456789abcdef".toList)
        ("photo 1.png".toList) =
      "photo_1-1700000000000-0123456789abcdef.png".toList ∧
    '/' ∉ generateUniqueFilename ("1700000000000".toList) ("0123456789abcdef".toList)
        ("photo 1.png".toList) := by
  have h := generateUniqueFilename_spec ("1700000000000".toList) ("0123456789abcdef".toList)
    ("photo 1.png".toList) (by decide) (by decide)
  refine ⟨?_, h.2.2.2.2.1⟩
  rw [h.1, h.2.2.1 (by decide)]
  decide

end ImageTransformer
